import Mathlib

/-!
Shallow embedding of `main.py` of the email_cer_parser repository.

The program is a Flask webhook that: (1) receives an email body as form
data, (2) asks the Gemini API to extract eight named fields as JSON,
(3) classifies the record by the first four characters of the extracted
CER number through a fixed lookup table, (4) normalizes the forwarded
date with dateutil, and (5) appends a ten-column row to a per-market
worksheet of a Google spreadsheet.

Python values reaching the modelled code are embedded as `PyVal`;
Python exceptions as `Except String`; the external services (Gemini,
json.loads, gspread) as oracle fields of a `World` record, so that the
handler's control flow — which is what the claims are about — is the
part translated literally from the source.
-/

/-- Embedding of the Python values that can appear in the handler's data
dictionary (JSON-decoded values and `None` from `form.get`). -/
inductive PyVal where
  | vStr : String → PyVal
  | vInt : Int → PyVal
  | vBool : Bool → PyVal
  | vNone : PyVal
deriving DecidableEq, Repr

/-- Python `str()` on the embedded values (`str(None) = "None"`,
`str(True) = "True"`). -/
def pyStr : PyVal → String
  | .vStr s => s
  | .vInt n => toString n
  | .vBool true => "True"
  | .vBool false => "False"
  | .vNone => "None"

/-- Python truthiness of the embedded values (`bool(x)`). -/
def pyTruthy : PyVal → Bool
  | .vStr s => s ≠ ""
  | .vInt n => n ≠ 0
  | .vBool b => b
  | .vNone => false

/-- A Python dict with string keys, as an association list (Python dicts
preserve insertion order; lookups take the unique binding, modelled as
the first one). -/
abbrev PyDict := List (String × PyVal)

/-- Python `d.get(k, dflt)`. -/
def dGet (d : PyDict) (k : String) (dflt : PyVal) : PyVal :=
  match d.find? (fun p => p.1 == k) with
  | some p => p.2
  | none => dflt

/-- Python `d.get(k)` (default `None` modelled as `Option`). -/
def dGetOpt (d : PyDict) (k : String) : Option PyVal :=
  match d.find? (fun p => p.1 == k) with
  | some p => some p.2
  | none => none

/-- Python `d[k] = v`: replace the existing binding in place, else
append at the end. -/
def dSet (d : PyDict) (k : String) (v : PyVal) : PyDict :=
  match d with
  | [] => [(k, v)]
  | (k₀, v₀) :: rest =>
      if k₀ == k then (k₀, v) :: rest else (k₀, v₀) :: dSet rest k v

/-- The `MARKET_KEY` dict of `main.py`, lines 13–26, verbatim. -/
def MARKET_KEY : List (String × String) :=
  [("1020", "Corporate"), ("1060", "IT&S"), ("5500", "East Texas"), ("5501", "East Texas"),
   ("5504", "East Texas"), ("5505", "East Texas"), ("5510", "East Texas"), ("5515", "East Texas"),
   ("5520", "East Texas"), ("5525", "East Texas"), ("5530", "East Texas"), ("5535", "East Texas"),
   ("5540", "East Texas"), ("5550", "East Texas"), ("5400", "Idaho"), ("5404", "Idaho"),
   ("5405", "Idaho"), ("5480", "Kansas"), ("5430", "New Jersey"), ("5440", "New Jersey"),
   ("1500", "New Mexico"), ("5050", "New Mexico"), ("5055", "New Mexico"), ("5061", "New Mexico"),
   ("5070", "New Mexico"), ("5082", "New Mexico"), ("5125", "New Mexico"),
   ("1600", "Oklahoma"), ("5200", "Oklahoma"), ("5201", "Oklahoma"), ("5210", "Oklahoma"),
   ("5230", "Oklahoma"), ("5251", "Oklahoma"), ("5260", "Oklahoma"), ("5265", "Oklahoma"),
   ("5270", "Oklahoma"), ("5275", "Oklahoma"), ("5280", "Oklahoma"), ("5300", "West Texas"),
   ("5301", "West Texas"), ("5310", "West Texas"), ("5311", "West Texas"), ("5316", "West Texas"),
   ("5320", "West Texas"), ("5410", "West Texas"), ("5415", "West Texas")]

/-- `MARKET_KEY.get(k, "No Match")`: Python dict lookup with default. -/
def marketLookup (k : String) : String :=
  match MARKET_KEY.find? (fun p => p.1 == k) with
  | some p => p.2
  | none => "No Match"

/-- `get_market_from_cer` of `main.py`, lines 67–70: the argument is an
arbitrary Python value (`isinstance(cer_number, str)` guards the string
case); `cer_number[:4]` is the first four characters. -/
def get_market_from_cer (cer_number : PyVal) : String :=
  match cer_number with
  | .vStr s => if s.length ≥ 4 then marketLookup (s.take 4) else "No Match"
  | _ => "No Match"

/-- Decimal digit character, `str(n)` for one digit (the catch-all arm
is only ever reached with `n = 9`; all uses pass `n < 10`). -/
def digitChar : Nat → Char
  | 0 => '0' | 1 => '1' | 2 => '2' | 3 => '3' | 4 => '4'
  | 5 => '5' | 6 => '6' | 7 => '7' | 8 => '8' | _ => '9'

/-- Numeric value of a decimal digit character. -/
def digitVal (c : Char) : Nat := c.toNat - 48

/-- Is `c` one of `'0'`–`'9'` (Python `str.isdigit` on ASCII digits)? -/
def isDigitChar (c : Char) : Bool := 48 ≤ c.toNat && c.toNat ≤ 57

/-- Value of a run of decimal digit characters (Python `int(token)`;
Python integers are unbounded, hence `Nat`). -/
def digitsVal (l : List Char) : Nat := l.foldl (fun a c => 10 * a + digitVal c) 0

/-- Decimal rendering of `n`, as Python `str` of an `int` inside an
f-string.  Written out for `n < 10000`, which covers every value this
development renders (`duParse` only accepts years ≤ 9999, months ≤ 12
and days ≤ 31); the last arm is only ever applied below 10000. -/
def renderNat (n : Nat) : List Char :=
  if n < 10 then [digitChar n]
  else if n < 100 then [digitChar (n / 10), digitChar (n % 10)]
  else if n < 1000 then
    [digitChar (n / 100), digitChar (n / 10 % 10), digitChar (n % 10)]
  else
    [digitChar (n / 1000), digitChar (n / 100 % 10), digitChar (n / 10 % 10),
     digitChar (n % 10)]

/-- Python `str.strip` whitespace characters. -/
def isSpaceChar (c : Char) : Bool :=
  c = ' ' || c = '\t' || c = '\n' || c = '\r' || c = '\x0b' || c = '\x0c'

/-- Python `str.strip()`: drop leading and trailing whitespace. -/
def pyStrip (l : List Char) : List Char :=
  ((l.dropWhile isSpaceChar).reverse.dropWhile isSpaceChar).reverse

/-- Split a character list at every `'/'` (the slash-separated date
tokens the dateutil lexer produces for a pure slash date). -/
def splitOnSlash (l : List Char) : List (List Char) :=
  match l with
  | [] => [[]]
  | c :: rest =>
      if c = '/' then [] :: splitOnSlash rest
      else
        match splitOnSlash rest with
        | [] => [[c]]
        | t :: ts => (c :: t) :: ts

/-- Proleptic Gregorian leap year (Python `calendar.isleap`). -/
def isLeap (y : Nat) : Bool := y % 4 == 0 && (y % 100 != 0 || y % 400 == 0)

/-- Days in a month (`calendar.monthrange(y, m)[1]`), for `1 ≤ m ≤ 12`. -/
def daysInMonth (y m : Nat) : Nat :=
  if m = 2 then (if isLeap y then 29 else 28)
  else if m = 4 ∨ m = 6 ∨ m = 9 ∨ m = 11 then 30
  else 31

/-- dateutil `parserinfo.convertyear`: a year under 100 without an
explicit century is moved within 50 years of the current year.  The
current date is fixed at 2026 (so `_century = 2000`); the result only
depends on this choice through which concrete century a two-digit year
lands in, never through whether conversion happens. -/
def convertyear (y : Nat) (centurySpecified : Prop)
    [Decidable centurySpecified] : Nat :=
  if y < 100 ∧ ¬ centurySpecified then
    let y2 := y + 2000
    if y2 ≥ 2026 + 50 then y2 - 100
    else if y2 + 50 < 2026 then y2 + 100
    else y2
  else y

/-- A parsed calendar date (the Y/M/D fields of the `datetime` that
`dateutil.parser.parse` builds; time-of-day fields play no role in
`format_date_string`). -/
structure DUDate where
  year : Nat
  month : Nat
  day : Nat
deriving DecidableEq, Repr

/-- The three observable outcomes of the `parse` call at line 76:
success; a `ValueError`/`TypeError` (which the `except` of line 78
catches); or an `OverflowError` from `datetime.replace` when a parsed
year, month or day does not fit a C `int` — which that `except` does
NOT catch, so it propagates out of `format_date_string`. -/
inductive DUOutcome where
  | parsed (dt : DUDate)
  | failed
  | overflow
deriving DecidableEq, Repr

/-- CPython converts the year/month/day arguments of
`datetime.replace` to C `int`; values above this bound raise
`OverflowError` before any range check runs. -/
def INT_MAX : Nat := 2147483647

/-- `str(e)` of that `OverflowError` in CPython. -/
def OVERFLOW_MSG : String := "signed integer is greater than maximum"

/-- Exception-or-value results are compared decidably in witnesses. -/
instance {e a : Type} [DecidableEq e] [DecidableEq a] : DecidableEq (Except e a)
  | .ok x, .ok y =>
      if h : x = y then .isTrue (by rw [h])
      else .isFalse (fun hc => h (Except.ok.inj hc))
  | .error x, .error y =>
      if h : x = y then .isTrue (by rw [h])
      else .isFalse (fun hc => h (Except.error.inj hc))
  | .ok x, .error y => .isFalse (fun hc => Except.noConfusion hc)
  | .error x, .ok y => .isFalse (fun hc => Except.noConfusion hc)

/-- Model of `dateutil.parser.parse(s, fuzzy=True)` restricted to
strings that consist of exactly three `'/'`-separated runs of decimal
digits — the domain the date claims are about.  On that domain it
follows `dateutil/parser/_parser.py` literally:

* a digit token longer than two characters is labelled a year
  (`_ymd.append`), and sets `century_specified`; a second year label
  raises `ValueError("Year is already set")`;
* a first token of length 6, 8, 12 or 14 is consumed by the
  `YYMMDD`/`YYYYMMDD` branches of `_parse_numeric_token`, after which
  the two remaining tokens overflow the YMD list and parsing fails;
* `resolve_ymd` with the default `dayfirst=False, yearfirst=False`:
  first token `> 31` or year-labelled ⇒ year-month-day; else first
  token `> 12` ⇒ day-month-year; else month-day-year;
* `convertyear` moves an unlabelled year under 100 into the current
  century; `datetime.replace` then converts year, month and day to C
  `int` — raising `OverflowError` above `INT_MAX`, which `parse` does
  not wrap and `format_date_string` does not catch — and validates the
  ranges (1 ≤ year ≤ 9999 etc.), raising `ValueError` on violation,
  which is caught.

Every input outside this domain is mapped to `.failed`; such strings
are outside the scope of the embedding (dateutil may parse some of
them), and no theorem below rests on the parser's behaviour there. -/
def duParse (l : List Char) : DUOutcome :=
  match splitOnSlash l with
  | [ta, tb, tc] =>
      if ta ≠ [] ∧ tb ≠ [] ∧ tc ≠ [] ∧
         ta.all isDigitChar ∧ tb.all isDigitChar ∧ tc.all isDigitChar then
        if ta.length = 6 ∨ ta.length = 8 ∨ ta.length = 12 ∨ ta.length = 14 then
          .failed
        else
          let a := digitsVal ta
          let b := digitsVal tb
          let c := digitsVal tc
          let aY := 2 < ta.length
          let bY := 2 < tb.length
          let cY := 2 < tc.length
          if (aY ∧ bY) ∨ (aY ∧ cY) ∨ (bY ∧ cY) then .failed
          else
            let centurySpecified := aY ∨ bY ∨ cY
            let ymd : Nat × Nat × Nat :=
              if 31 < a ∨ aY then (a, b, c)
              else if 12 < a then (c, b, a)
              else (c, a, b)
            let y := convertyear ymd.1 centurySpecified
            let m := ymd.2.1
            let d := ymd.2.2
            if INT_MAX < y ∨ INT_MAX < m ∨ INT_MAX < d then .overflow
            else if 1 ≤ m ∧ m ≤ 12 ∧ 1 ≤ d ∧ d ≤ daysInMonth y m ∧
               1 ≤ y ∧ y ≤ 9999 then
              .parsed ⟨y, m, d⟩
            else .failed
      else .failed
  | _ => .failed

/-- `f"{dt.month}/{dt.day}/{dt.year}"` of `main.py`, line 77. -/
def renderDate (dt : DUDate) : List Char :=
  renderNat dt.month ++ '/' :: renderNat dt.day ++ '/' :: renderNat dt.year

/-- `format_date_string` of `main.py`, lines 72–79: empty input yields
`""`; otherwise the stripped input is parsed leniently and reformatted
as `month/day/year`; if parsing fails with `ValueError`/`TypeError`
the input is returned unchanged (the `except` of line 78), but an
`OverflowError` from `datetime` matches neither handler and
propagates, so the function can raise — hence the `Except` result. -/
def format_date_string (s : String) : Except String String :=
  if s = "" then .ok ""
  else
    match duParse (pyStrip s.data) with
    | .parsed dt => .ok (String.mk (renderDate dt))
    | .failed => .ok s
    | .overflow => .error OVERFLOW_MSG

/-- Python `str.find(c)`: index of the first occurrence, `-1` if
absent. -/
def pyFind (l : List Char) (c : Char) : Int :=
  match l.findIdx? (fun x => x == c) with
  | some i => (i : Int)
  | none => -1

/-- Python `str.rfind(c)`: index of the last occurrence, `-1` if
absent. -/
def pyRFind (l : List Char) (c : Char) : Int :=
  match l.reverse.findIdx? (fun x => x == c) with
  | some i => ((l.length - 1 - i : Nat) : Int)
  | none => -1

/-- Normalization of one Python slice bound: negative indices count
from the end, then the bound is clamped to `[0, len]`. -/
def pySliceIdx (len : Nat) (i : Int) : Nat :=
  let j := if i < 0 then i + len else i
  if j < 0 then 0 else min j.toNat len

/-- Python `l[a:b]` for character lists. -/
def pySlice (l : List Char) (a b : Int) : List Char :=
  let s := pySliceIdx l.length a
  let e := pySliceIdx l.length b
  (l.drop s).take (e - s)

/-- `GeminiProcessor.clean_json_response` of `main.py`, lines 41–43:
`text[text.find('\x7b') : text.rfind('\x7d')+1]`, with the empty slice
(falsy) replaced by the literal two-character object string. -/
def clean_json_response (text : String) : String :=
  let l := text.data
  let m := pySlice l (pyFind l '\x7b') (pyRFind l '\x7d' + 1)
  if m = [] then "\x7b\x7d" else String.mk m

/-- A Python exception, embedded as its `str(e)` message (all the
handler does with a caught exception is interpolate it into text). -/
abbrev PyErr := String

/-- The spreadsheet-side effects `update_google_sheet` attempts, in
order: opening the named spreadsheet, looking up / creating the market
worksheet, appending the header row, appending the data row. -/
inductive SheetEv where
  | openSheet (name : String)
  | wsFound (tab : PyVal)
  | wsCreate (tab : PyVal)
  | headerRow (tab : PyVal) (cols : List String)
  | appendRow (tab : PyVal) (row : List PyVal)
deriving DecidableEq, Repr

/-- Outcome of `spreadsheet.worksheet(market)`: found, the
`gspread.WorksheetNotFound` branch of lines 113–116, or any other
exception (which the inner `try` does not catch). -/
inductive WsResult where
  | found
  | notFound
  | err (e : String)
deriving DecidableEq, Repr

/-- Oracle for everything outside the program: environment variables
and the responses (or exceptions) of the Gemini and Google Sheets
services.  A theorem quantified over `World` holds whatever the
external services do. -/
structure World where
  geminiKey : Option String
  generate : String → Except String String
  jsonLoads : String → Except String PyDict
  sheetName : Option String
  clientOutcome : Except String Unit
  openOutcome : Except String Unit
  wsLookup : WsResult
  addWsOutcome : Except String Unit
  headerOutcome : Except String Unit
  appendOutcome : Except String Unit

/-- The fixed header row of `main.py`, line 119. -/
def HEADER : List String :=
  ["Forwarded Date", "Market", "Ardent CER#", "Capital $", "Notes", "Mfg",
   "Model", "ETA/Install", "URL", "Source Email"]

/-- The fixed instruction text of `extract_data_from_email`, lines
46–59, prepended to the email body. -/
def PROMPT : String :=
  "\n        Analyze the email content. Extract the following fields:\n" ++
  "        - \"Forwarded Date\": The 'Sent' date from the Tim Huffman email. Format it strictly as YYYY-MM-DD.\n" ++
  "        - \"Ardent CER#\": The Capital Equipment Request number, often following \"CER:\".\n" ++
  "        - \"Notes\": A concise project description (e.g., \"ED Expansion\", \"OR Tables\").\n" ++
  "        - \"Capital $\": A number only, converting 'k' to thousands (e.g., $315k becomes 315000).\n" ++
  "        - \"ETA/Install\": The estimated arrival or installation date/quarter.\n" ++
  "        - \"Mfg\": Based on the notes and content, infer the Manufacturer.\n" ++
  "        - \"Model\": Based on the notes and content, infer the specific Model.\n" ++
  "        - \"URL\": The ERP link, which is a URL usually starting with \"http\".\n" ++
  "        Return a single, minified JSON object. If a field is not found, use an empty string \"\".\n" ++
  "        ---\n        Email Content:\n        "

/-- `GeminiProcessor.__init__`, lines 30–39: raises `ValueError` when
`GEMINI_API_KEY` is absent (the `except` there re-raises after
printing, so the error always propagates to the caller). -/
def geminiInit (w : World) : Except String Unit :=
  match w.geminiKey with
  | none => .error "GEMINI_API_KEY not found in environment variables."
  | some _ => .ok ()

/-- `GeminiProcessor.extract_data_from_email`, lines 45–64: any failure
of the API call or of JSON parsing is re-raised as a `ValueError`
wrapping the original message.  The model restricts `json.loads` to
object-valued results (a non-object value would fail later, at the
`.get` calls, reaching the same 500 path). -/
def extract_data_from_email (w : World) (email_body : String) :
    Except String PyDict :=
  match w.generate (PROMPT ++ email_body) with
  | .error e => .error ("Gemini API call or JSON parsing failed: " ++ e)
  | .ok t =>
      match w.jsonLoads (clean_json_response t) with
      | .error e => .error ("Gemini API call or JSON parsing failed: " ++ e)
      | .ok d => .ok d

/-- The body of the `try` of `update_google_sheet`, lines 99–138:
the spreadsheet effects attempted, in order, and the exception that
aborted the sequence, if any.  The row is built by `data.get(k, "")`
for the eight fields plus the market value and the source email
(lines 124–135). -/
def updateSheetTry (w : World) (data : PyDict) :
    List SheetEv × Option String :=
  match w.clientOutcome with
  | .error e => ([], some e)
  | .ok _ =>
    let name := w.sheetName.getD "CER_Report"
    match w.openOutcome with
    | .error e => ([.openSheet name], some e)
    | .ok _ =>
      let market := dGet data "Market" (.vStr "Unknown")
      let row := [dGet data "Forwarded Date" (.vStr ""), market,
        dGet data "Ardent CER#" (.vStr ""), dGet data "Capital $" (.vStr ""),
        dGet data "Notes" (.vStr ""), dGet data "Mfg" (.vStr ""),
        dGet data "Model" (.vStr ""), dGet data "ETA/Install" (.vStr ""),
        dGet data "URL" (.vStr ""), dGet data "Source Email" (.vStr "")]
      match w.wsLookup with
      | .err e => ([.openSheet name], some e)
      | .found =>
          match w.appendOutcome with
          | .error e =>
              ([.openSheet name, .wsFound market, .appendRow market row], some e)
          | .ok _ =>
              ([.openSheet name, .wsFound market, .appendRow market row], none)
      | .notFound =>
          match w.addWsOutcome with
          | .error e => ([.openSheet name, .wsCreate market], some e)
          | .ok _ =>
            match w.headerOutcome with
            | .error e =>
                ([.openSheet name, .wsCreate market, .headerRow market HEADER],
                 some e)
            | .ok _ =>
              match w.appendOutcome with
              | .error e =>
                  ([.openSheet name, .wsCreate market, .headerRow market HEADER,
                    .appendRow market row], some e)
              | .ok _ =>
                  ([.openSheet name, .wsCreate market, .headerRow market HEADER,
                    .appendRow market row], none)

/-- `update_google_sheet`, lines 97–142: the whole body is wrapped in
`try ... except Exception`, whose handler only prints — the exception
is swallowed, so the function returns the effects performed and never
raises. -/
def update_google_sheet (w : World) (data : PyDict) : List SheetEv :=
  (updateSheetTry w data).1

/-- Line 166: `format_date_string(extracted_data.get("Forwarded Date"))`
at the Python-value level.  `None`, `0`, `False` and `""` are falsy and
yield `""`; a truthy non-string has no `.strip` and the resulting
`AttributeError` is not caught by `format_date_string`. -/
def formatForwardedDate (v : Option PyVal) : Except String PyVal :=
  match v with
  | none => .ok (.vStr "")
  | some x =>
      if pyTruthy x = false then .ok (.vStr "")
      else
        match x with
        | .vStr s =>
            match format_date_string s with
            | .ok t => .ok (.vStr t)
            | .error e => .error e
        | .vInt _ => .error "'int' object has no attribute 'strip'"
        | .vBool _ => .error "'bool' object has no attribute 'strip'"
        | .vNone => .ok (.vStr "")

/-- A Flask response: plain-text body and HTTP status code. -/
structure HttpResp where
  body : String
  status : Nat
deriving DecidableEq, Repr

/-- The success body of line 173, byte-for-byte as in the source. -/
def SUCCESS_MSG : String := "‚úÖ Success: Email processed and sheet updated."

/-- `handle_email`, lines 146–177: the webhook endpoint.  Returns the
response and the spreadsheet effects performed.  `request.form.get`
yields `None` for a missing field; `if not email_body` catches both
`None` and the empty string; everything from `GeminiProcessor()` to the
final `return` runs inside `try ... except Exception`, which answers
500 with the exception message. -/
def handle_email (w : World) (text email_from : Option String) :
    HttpResp × List SheetEv :=
  if text = none ∨ text = some "" then
    (⟨"Failed: No email body content.", 400⟩, [])
  else
    let email_body := match text with | some b => b | none => ""
    match geminiInit w with
    | .error e => (⟨"Internal server error: " ++ e, 500⟩, [])
    | .ok _ =>
      match extract_data_from_email w email_body with
      | .error e => (⟨"Internal server error: " ++ e, 500⟩, [])
      | .ok extracted =>
        let cer_number := pyStr (dGet extracted "Ardent CER#" (.vStr ""))
        if cer_number = "" then
          (⟨"Failed: Could not extract CER#.", 400⟩, [])
        else
          match formatForwardedDate (dGetOpt extracted "Forwarded Date") with
          | .error e => (⟨"Internal server error: " ++ e, 500⟩, [])
          | .ok fd =>
            let d1 := dSet extracted "Forwarded Date" fd
            let d2 := dSet d1 "Market"
              (.vStr (get_market_from_cer (.vStr cer_number)))
            let d3 := dSet d2 "Source Email"
              (match email_from with | some f => .vStr f | none => .vNone)
            (⟨SUCCESS_MSG, 200⟩, update_google_sheet w d3)

/-- A concrete extraction result with all eight fields populated, used
to instantiate the webhook theorems. -/
def dHappy : PyDict :=
  [("Forwarded Date", .vStr "03/14/2023"), ("Ardent CER#", .vStr "5510-001"),
   ("Capital $", .vStr "315000"), ("Notes", .vStr "ED Expansion"),
   ("Mfg", .vStr "Stryker"), ("Model", .vStr "X"),
   ("ETA/Install", .vStr "Q3 2026"), ("URL", .vStr "http://erp.example")]

/-- A concrete world in which every external call succeeds and the
extraction yields `dHappy`. -/
def wHappy : World :=
  { geminiKey := some "key",
    generate := fun _ => .ok "\x7b\x7d",
    jsonLoads := fun _ => .ok dHappy,
    sheetName := none,
    clientOutcome := .ok (),
    openOutcome := .ok (),
    wsLookup := .found,
    addWsOutcome := .ok (),
    headerOutcome := .ok (),
    appendOutcome := .ok () }

/-- Like `wHappy` but the extraction yields an empty object, so the
request number defaults to the empty string. -/
def wNoCer : World := { wHappy with jsonLoads := fun _ => .ok [] }

/-- Like `wHappy` but `GEMINI_API_KEY` is unset. -/
def wNoKey : World := { wHappy with geminiKey := none }

/-- Like `wHappy` but the model reply is not parseable JSON. -/
def wBadJson : World :=
  { wHappy with
    jsonLoads := fun _ => .error "Expecting value: line 1 column 1 (char 0)" }

/-- Like `wHappy` but the final row append raises. -/
def wAppendFail : World :=
  { wHappy with appendOutcome := .error "quota exceeded" }

/-- In an association list whose keys are distinct, `find?` on a key
returns exactly the binding of that key. -/
theorem find?_of_mem_nodup_keys {β : Type} :
    ∀ (l : List (String × β)) (k : String) (v : β),
      (l.map Prod.fst).Nodup → (k, v) ∈ l →
      l.find? (fun p => p.1 == k) = some (k, v) := by
  intro l
  induction l with
  | nil => intro k v _ hmem; cases hmem
  | cons hd tl ih =>
      intro k v hnd hmem
      rcases List.mem_cons.mp hmem with heq | htl
      · subst heq
        simp [List.find?]
      · have hnd' : (hd.1 :: tl.map Prod.fst).Nodup := by
          rw [List.map_cons] at hnd; exact hnd
        obtain ⟨hni, hnd2⟩ := List.nodup_cons.mp hnd'
        have hk : k ∈ tl.map Prod.fst :=
          List.mem_map.mpr ⟨(k, v), htl, rfl⟩
        have hne : hd.1 ≠ k := fun hkk => hni (hkk ▸ hk)
        simp only [List.find?]
        rw [show (hd.1 == k) = false from beq_eq_false_iff_ne.mpr hne]
        exact ih k v hnd2 htl

/-- The 46 keys of `MARKET_KEY` are pairwise distinct. -/
theorem MARKET_KEY_keys_nodup : (MARKET_KEY.map Prod.fst).Nodup := by
  decide

/-- C1: for every string of length ≥ 4 whose first four characters are a
key of `MARKET_KEY`, `get_market_from_cer` returns the mapped category
name (in particular `"5510-001"` yields `"East Texas"`); for a first-four
prefix that is not a key, for a string shorter than four characters, and
for a non-string value, it returns `"No Match"`. -/
theorem get_market_from_cer_spec :
    (∀ s v, 4 ≤ s.length → (s.take 4, v) ∈ MARKET_KEY →
      get_market_from_cer (.vStr s) = v)
  ∧ (∀ s, 4 ≤ s.length → s.take 4 ∉ MARKET_KEY.map Prod.fst →
      get_market_from_cer (.vStr s) = "No Match")
  ∧ (∀ s, s.length < 4 → get_market_from_cer (.vStr s) = "No Match")
  ∧ (∀ x : PyVal, (∀ s, x ≠ .vStr s) → get_market_from_cer x = "No Match")
  ∧ get_market_from_cer (.vStr "5510-001") = "East Texas" := by
  refine ⟨?_, ?_, ?_, ?_, by decide⟩
  · intro s v hlen hmem
    have hfind := find?_of_mem_nodup_keys MARKET_KEY (s.take 4) v
      MARKET_KEY_keys_nodup hmem
    simp [get_market_from_cer, hlen, marketLookup, hfind]
  · intro s hlen hnk
    have hfind : MARKET_KEY.find? (fun p => p.1 == s.take 4) = none := by
      rw [List.find?_eq_none]
      intro p hp hbeq
      exact hnk (List.mem_map.mpr ⟨p, hp, by simpa using hbeq⟩)
    simp [get_market_from_cer, hlen, marketLookup, hfind]
  · intro s hlen
    have h4 : ¬ (4 ≤ s.length) := by omega
    simp [get_market_from_cer, h4]
  · intro x hx
    cases x with
    | vStr s => exact absurd rfl (hx s)
    | vInt n => rfl
    | vBool b => rfl
    | vNone => rfl

/-- Concrete instances of `get_market_from_cer_spec`: a table hit, a
miss, a short string, and a non-string value. -/
theorem get_market_from_cer_spec_witness :
    get_market_from_cer (.vStr "5510-001") = "East Texas"
  ∧ get_market_from_cer (.vStr "9999-77") = "No Match"
  ∧ get_market_from_cer (.vStr "551") = "No Match"
  ∧ get_market_from_cer .vNone = "No Match" := by
  refine ⟨get_market_from_cer_spec.2.2.2.2, ?_, ?_, ?_⟩
  · exact get_market_from_cer_spec.2.1 "9999-77" (by decide) (by decide)
  · exact get_market_from_cer_spec.2.2.1 "551" (by decide)
  · exact get_market_from_cer_spec.2.2.2.1 .vNone (fun s h => PyVal.noConfusion h)

/-- C2 counterexample: on `"99999999999/1/2"` — inside the modelled
slash-digit domain — dateutil labels the eleven-digit token a year,
`datetime.replace(year=99999999999)` raises `OverflowError` (the value
exceeds a C `int`), `parse` wraps only `ValueError`, and the `except
(ValueError, TypeError)` of line 78 does not match: `format_date_string`
raises instead of returning its input, refuting "never raises an
exception". -/
theorem format_date_string_overflow_raises :
    duParse (pyStrip "99999999999/1/2".data) = .overflow
  ∧ format_date_string "99999999999/1/2" = .error OVERFLOW_MSG
  ∧ format_date_string "99999999999/1/2" ≠ .ok "99999999999/1/2" :=
  ⟨by decide, by decide, by decide⟩

/-- C2 (amended): whenever lenient parsing of the (stripped) input
fails with a `ValueError` or `TypeError`, `format_date_string` returns
its input unchanged (the `except` branch of lines 78–79); but when a
parsed year, month or day exceeds the C `int` range the resulting
`OverflowError` matches neither handler and propagates out of the
function. -/
theorem format_date_string_failure_id (s : String) :
    (duParse (pyStrip s.data) = .failed → format_date_string s = .ok s)
  ∧ (duParse (pyStrip s.data) = .overflow →
      format_date_string s = .error OVERFLOW_MSG) := by
  constructor
  · intro h
    by_cases hs : s = ""
    · simp [format_date_string, hs]
    · simp [format_date_string, hs, h]
  · intro h
    by_cases hs : s = ""
    · rw [hs] at h
      rw [show duParse (pyStrip "".data) = .failed from by decide] at h
      exact DUOutcome.noConfusion h
    · simp [format_date_string, hs, h]

/-- Concrete instances of `format_date_string_failure_id`: a caught
parse failure returns the input; an overflowing year propagates the
`OverflowError`. -/
theorem format_date_string_failure_id_witness :
    duParse (pyStrip "hello world".data) = .failed
  ∧ format_date_string "hello world" = .ok "hello world"
  ∧ duParse (pyStrip "99999999999/1/2".data) = .overflow
  ∧ format_date_string "99999999999/1/2" = .error OVERFLOW_MSG :=
  ⟨by decide, (format_date_string_failure_id "hello world").1 (by decide),
   by decide, (format_date_string_failure_id "99999999999/1/2").2 (by decide)⟩

/-- A digit character built from `k < 10` decodes back to `k`. -/
theorem digitVal_digitChar {k : Nat} (h : k < 10) : digitVal (digitChar k) = k := by
  interval_cases k <;> rfl

/-- `digitChar` always yields a decimal digit character. -/
theorem isDigitChar_digitChar (k : Nat) : isDigitChar (digitChar k) = true := by
  rcases k with _|_|_|_|_|_|_|_|_|k <;> rfl

/-- `digitChar` never yields a slash. -/
theorem digitChar_ne_slash (k : Nat) : digitChar k ≠ '/' := by
  intro hc
  have hd := isDigitChar_digitChar k
  rw [hc] at hd
  exact absurd hd (by decide)

/-- `digitChar` never yields a whitespace character. -/
theorem isSpaceChar_digitChar (k : Nat) : isSpaceChar (digitChar k) = false := by
  rcases k with _|_|_|_|_|_|_|_|_|k <;> rfl

/-- Decoding inverts rendering below 10000. -/
theorem digitsVal_renderNat {n : Nat} (h : n < 10000) :
    digitsVal (renderNat n) = n := by
  by_cases h1 : n < 10
  · simp [renderNat, h1, digitsVal, List.foldl, digitVal_digitChar h1]
  · by_cases h2 : n < 100
    · have d1 : n / 10 < 10 := by omega
      have d2 : n % 10 < 10 := by omega
      simp [renderNat, h1, h2, digitsVal, List.foldl,
        digitVal_digitChar d1, digitVal_digitChar d2]
      omega
    · by_cases h3 : n < 1000
      · have d1 : n / 100 < 10 := by omega
        have d2 : n / 10 % 10 < 10 := by omega
        have d3 : n % 10 < 10 := by omega
        simp [renderNat, h1, h2, h3, digitsVal, List.foldl,
          digitVal_digitChar d1, digitVal_digitChar d2, digitVal_digitChar d3]
        omega
      · have d1 : n / 1000 < 10 := by omega
        have d2 : n / 100 % 10 < 10 := by omega
        have d3 : n / 10 % 10 < 10 := by omega
        have d4 : n % 10 < 10 := by omega
        simp [renderNat, h1, h2, h3, digitsVal, List.foldl,
          digitVal_digitChar d1, digitVal_digitChar d2,
          digitVal_digitChar d3, digitVal_digitChar d4]
        omega

/-- Rendered numbers under 100 fit in two characters. -/
theorem renderNat_length_le_two {n : Nat} (h : n < 100) :
    (renderNat n).length ≤ 2 := by
  by_cases h1 : n < 10
  · simp [renderNat, h1]
  · simp [renderNat, h1, h]

/-- Rendered numbers from 100 take more than two characters. -/
theorem renderNat_length_gt_two {n : Nat} (h : 100 ≤ n) :
    2 < (renderNat n).length := by
  have h1 : ¬ n < 10 := by omega
  have h2 : ¬ n < 100 := by omega
  by_cases h3 : n < 1000
  · simp [renderNat, h1, h2, h3]
  · simp [renderNat, h1, h2, h3]

/-- A rendered number is never empty. -/
theorem renderNat_ne_nil (n : Nat) : renderNat n ≠ [] := by
  by_cases h1 : n < 10
  · simp [renderNat, h1]
  · by_cases h2 : n < 100
    · simp [renderNat, h1, h2]
    · by_cases h3 : n < 1000
      · simp [renderNat, h1, h2, h3]
      · simp [renderNat, h1, h2, h3]

/-- A rendered number has at most four characters. -/
theorem renderNat_length_le_four (n : Nat) : (renderNat n).length ≤ 4 := by
  by_cases h1 : n < 10
  · simp [renderNat, h1]
  · by_cases h2 : n < 100
    · simp [renderNat, h1, h2]
    · by_cases h3 : n < 1000
      · simp [renderNat, h1, h2, h3]
      · simp [renderNat, h1, h2, h3]

/-- Every character of a rendered number is some digit character. -/
theorem mem_renderNat {c : Char} {n : Nat} (h : c ∈ renderNat n) :
    ∃ k, c = digitChar k := by
  by_cases h1 : n < 10
  · simp [renderNat, h1] at h
    exact ⟨_, h⟩
  · by_cases h2 : n < 100
    · simp [renderNat, h1, h2] at h
      rcases h with h | h <;> exact ⟨_, h⟩
    · by_cases h3 : n < 1000
      · simp [renderNat, h1, h2, h3] at h
        rcases h with h | h | h <;> exact ⟨_, h⟩
      · simp [renderNat, h1, h2, h3] at h
        rcases h with h | h | h | h <;> exact ⟨_, h⟩

/-- Every character of a rendered number passes the digit test. -/
theorem renderNat_all_digits (n : Nat) : (renderNat n).all isDigitChar = true := by
  rw [List.all_eq_true]
  intro c hc
  obtain ⟨k, rfl⟩ := mem_renderNat hc
  exact isDigitChar_digitChar k

/-- No character of a rendered number is a slash. -/
theorem renderNat_no_slash {c : Char} {n : Nat} (h : c ∈ renderNat n) : c ≠ '/' := by
  obtain ⟨k, rfl⟩ := mem_renderNat h
  exact digitChar_ne_slash k

/-- `splitOnSlash` never returns an empty list of tokens. -/
theorem splitOnSlash_ne_nil (l : List Char) : splitOnSlash l ≠ [] := by
  cases l with
  | nil => simp [splitOnSlash]
  | cons c rest =>
      by_cases hc : c = '/'
      · simp [splitOnSlash, hc]
      · simp only [splitOnSlash, if_neg hc]
        cases splitOnSlash rest <;> simp

/-- A slash-free list is a single token. -/
theorem splitOnSlash_no_slash {t : List Char} (h : ∀ c ∈ t, c ≠ '/') :
    splitOnSlash t = [t] := by
  induction t with
  | nil => rfl
  | cons c rest ih =>
      have hc : c ≠ '/' := h c (List.mem_cons_self c rest)
      have hr := ih (fun x hx => h x (List.mem_cons_of_mem c hx))
      simp [splitOnSlash, hc, hr]

/-- Splitting peels a slash-free token before the first slash. -/
theorem splitOnSlash_append {t r : List Char} (h : ∀ c ∈ t, c ≠ '/') :
    splitOnSlash (t ++ '/' :: r) = t :: splitOnSlash r := by
  induction t with
  | nil => simp [splitOnSlash]
  | cons c rest ih =>
      have hc : c ≠ '/' := h c (List.mem_cons_self c rest)
      have hr := ih (fun x hx => h x (List.mem_cons_of_mem c hx))
      simp [splitOnSlash, hc, hr]

/-- `dropWhile` is the identity on a list none of whose elements
satisfy the predicate. -/
theorem dropWhile_eq_self_of_none {l : List Char} {p : Char → Bool}
    (h : ∀ c ∈ l, p c = false) : l.dropWhile p = l := by
  cases l with
  | nil => rfl
  | cons c rest => simp [List.dropWhile, h c (List.mem_cons_self c rest)]

/-- Stripping is the identity on a list with no whitespace. -/
theorem pyStrip_eq_self {l : List Char} (h : ∀ c ∈ l, isSpaceChar c = false) :
    pyStrip l = l := by
  unfold pyStrip
  rw [dropWhile_eq_self_of_none h,
    dropWhile_eq_self_of_none (fun c hc => h c (List.mem_reverse.mp hc)),
    List.reverse_reverse]

/-- No character of a rendered date is whitespace. -/
theorem renderDate_no_space {dt : DUDate} :
    ∀ c ∈ renderDate dt, isSpaceChar c = false := by
  intro c hc
  unfold renderDate at hc
  rcases List.mem_append.mp hc with h1 | h2
  · rcases List.mem_append.mp h1 with h3 | h4
    · obtain ⟨k, rfl⟩ := mem_renderNat h3; exact isSpaceChar_digitChar k
    · rcases List.mem_cons.mp h4 with h5 | h6
      · subst h5; rfl
      · obtain ⟨k, rfl⟩ := mem_renderNat h6; exact isSpaceChar_digitChar k
  · rcases List.mem_cons.mp h2 with h7 | h8
    · subst h7; rfl
    · obtain ⟨k, rfl⟩ := mem_renderNat h8; exact isSpaceChar_digitChar k

/-- Every month has at most 31 days. -/
theorem daysInMonth_le_31 (y m : Nat) : daysInMonth y m ≤ 31 := by
  unfold daysInMonth
  by_cases hm : m = 2
  · simp only [hm, if_pos]
    by_cases hl : isLeap y <;> simp [hl]
  · rw [if_neg hm]
    by_cases h4 : m = 4 ∨ m = 6 ∨ m = 9 ∨ m = 11 <;> simp [h4]

/-- Parsing inverts rendering: a valid calendar date whose year has at
least three digits parses back to itself (the rendered year token is
longer than two characters, so dateutil labels it a year and applies no
century conversion). -/
theorem duParse_renderDate {y m d : Nat}
    (hm1 : 1 ≤ m) (hm2 : m ≤ 12) (hd1 : 1 ≤ d) (hd2 : d ≤ daysInMonth y m)
    (hy1 : 100 ≤ y) (hy2 : y ≤ 9999) :
    duParse (renderDate ⟨y, m, d⟩) = .parsed ⟨y, m, d⟩ := by
  have hd31 : d ≤ 31 := le_trans hd2 (daysInMonth_le_31 y m)
  have hmA : digitsVal (renderNat m) = m := digitsVal_renderNat (by omega)
  have hdB : digitsVal (renderNat d) = d := digitsVal_renderNat (by omega)
  have hyC : digitsVal (renderNat y) = y := digitsVal_renderNat (by omega)
  have hlA : (renderNat m).length ≤ 2 := renderNat_length_le_two (by omega)
  have hlB : (renderNat d).length ≤ 2 := renderNat_length_le_two (by omega)
  have hlC : 2 < (renderNat y).length := renderNat_length_gt_two hy1
  have hsplit : splitOnSlash (renderDate ⟨y, m, d⟩) =
      [renderNat m, renderNat d, renderNat y] := by
    show splitOnSlash
      ((renderNat m ++ '/' :: renderNat d) ++ '/' :: renderNat y) = _
    rw [List.append_assoc, List.cons_append]
    rw [splitOnSlash_append (fun c hc => renderNat_no_slash hc)]
    rw [splitOnSlash_append (fun c hc => renderNat_no_slash hc)]
    rw [splitOnSlash_no_slash (fun c hc => renderNat_no_slash hc)]
  have c1 : renderNat m ≠ [] ∧ renderNat d ≠ [] ∧ renderNat y ≠ [] ∧
      (renderNat m).all isDigitChar = true ∧
      (renderNat d).all isDigitChar = true ∧
      (renderNat y).all isDigitChar = true :=
    ⟨renderNat_ne_nil m, renderNat_ne_nil d, renderNat_ne_nil y,
      renderNat_all_digits m, renderNat_all_digits d, renderNat_all_digits y⟩
  have c2 : ((renderNat m).length = 6 ∨ (renderNat m).length = 8 ∨
      (renderNat m).length = 12 ∨ (renderNat m).length = 14) = False :=
    eq_false (by omega)
  have c3 : ((2 < (renderNat m).length ∧ 2 < (renderNat d).length) ∨
      (2 < (renderNat m).length ∧ 2 < (renderNat y).length) ∨
      (2 < (renderNat d).length ∧ 2 < (renderNat y).length)) = False :=
    eq_false (by omega)
  have c4 : (31 < m ∨ 2 < (renderNat m).length) = False :=
    eq_false (by omega)
  have c5 : (12 < m) = False := eq_false (by omega)
  have c6 : (2 < (renderNat m).length ∨ 2 < (renderNat d).length ∨
      2 < (renderNat y).length) = True :=
    eq_true (Or.inr (Or.inr hlC))
  have cne : (renderNat m ≠ [] ∧ renderNat d ≠ [] ∧ renderNat y ≠ []) = True :=
    eq_true ⟨renderNat_ne_nil m, renderNat_ne_nil d, renderNat_ne_nil y⟩
  have cconv : convertyear y True = y := by simp [convertyear]
  have cfinal : (1 ≤ m ∧ m ≤ 12 ∧ 1 ≤ d ∧ d ≤ daysInMonth y m ∧
      1 ≤ y ∧ y ≤ 9999) = True :=
    eq_true ⟨hm1, hm2, hd1, hd2, by omega, hy2⟩
  have cov : (INT_MAX < y ∨ INT_MAX < m ∨ INT_MAX < d) = False :=
    eq_false (by simp only [INT_MAX]; omega)
  simp only [duParse, hsplit, c1, c2, c3, c6, if_true, if_false,
    and_true, true_and, hmA, hdB, hyC, c4, c5, cne, cconv, cov, cfinal]

/-- Validity of every parse result: the only `.parsed` exit of
`duParse` is guarded by the `datetime` range checks. -/
theorem duParse_valid {l : List Char} {dt : DUDate}
    (h : duParse l = .parsed dt) :
    1 ≤ dt.month ∧ dt.month ≤ 12 ∧ 1 ≤ dt.day ∧
    dt.day ≤ daysInMonth dt.year dt.month ∧ 1 ≤ dt.year ∧ dt.year ≤ 9999 := by
  unfold duParse at h
  simp only [] at h
  repeat' split at h
  all_goals cases h
  all_goals simp_all

/-- A rendered date is a nonempty character list. -/
theorem renderDate_ne_nil (dt : DUDate) : renderDate dt ≠ [] := by
  unfold renderDate
  intro hc
  rcases List.append_eq_nil.mp hc with ⟨h1, h2⟩
  exact List.cons_ne_nil _ _ h2

/-- Rendered dates with a three-or-more-digit year are fixed points of
`format_date_string`. -/
theorem format_renderDate_fixed {dt : DUDate}
    (hm1 : 1 ≤ dt.month) (hm2 : dt.month ≤ 12) (hd1 : 1 ≤ dt.day)
    (hd2 : dt.day ≤ daysInMonth dt.year dt.month)
    (hy1 : 100 ≤ dt.year) (hy2 : dt.year ≤ 9999) :
    format_date_string (String.mk (renderDate dt))
      = .ok (String.mk (renderDate dt)) := by
  have hne : String.mk (renderDate dt) ≠ "" := by
    intro hc
    exact renderDate_ne_nil dt (congrArg String.data hc)
  have hdata : (String.mk (renderDate dt)).data = renderDate dt := rfl
  have hparse : duParse (pyStrip (String.mk (renderDate dt)).data)
      = .parsed dt := by
    rw [hdata, pyStrip_eq_self renderDate_no_space]
    have : dt = ⟨dt.year, dt.month, dt.day⟩ := rfl
    rw [this] at hd2 ⊢
    exact duParse_renderDate hm1 hm2 hd1 hd2 hy1 hy2
  rw [format_date_string, if_neg hne, hparse]

/-- C3 counterexample: `format_date_string` is not a fixed point on the
normalized rendering `"1/2/3"` (month 1, day 2, year 3, each rendered
without zero padding), and it is not idempotent on the parseable string
`"1/2/0003"`: the four-character year token `0003` keeps the year 3,
which renders as the bare `"3"`, and reparsing `"1/2/3"` century-shifts
the two-or-fewer-digit year to 2003. -/
theorem format_date_string_not_idempotent :
    format_date_string "1/2/0003" = .ok "1/2/3"
  ∧ format_date_string "1/2/3" = .ok "1/2/2003"
  ∧ format_date_string "1/2/3" ≠ .ok "1/2/3"
  ∧ (format_date_string "1/2/0003").bind format_date_string
      ≠ format_date_string "1/2/0003" := by
  refine ⟨by decide, by decide, by decide, by decide⟩

/-- C3 (amended): `format_date_string` is a fixed point on every
rendered `M/D/YYYY` string whose year has at least three digits (in
particular every four-digit year), and is idempotent on every string it
can parse whose parsed year is at least 100. -/
theorem format_date_string_idempotent :
    (∀ dt : DUDate, 1 ≤ dt.month → dt.month ≤ 12 → 1 ≤ dt.day →
      dt.day ≤ daysInMonth dt.year dt.month → 100 ≤ dt.year → dt.year ≤ 9999 →
      format_date_string (String.mk (renderDate dt))
        = .ok (String.mk (renderDate dt)))
  ∧ (∀ (s : String) (dt : DUDate), duParse (pyStrip s.data) = .parsed dt →
      100 ≤ dt.year →
      format_date_string s = .ok (String.mk (renderDate dt))
      ∧ (format_date_string s).bind format_date_string
          = format_date_string s) := by
  constructor
  · intro dt hm1 hm2 hd1 hd2 hy1 hy2
    exact format_renderDate_fixed hm1 hm2 hd1 hd2 hy1 hy2
  · intro s dt h hy
    by_cases hs : s = ""
    · rw [hs] at h
      rw [show duParse (pyStrip "".data) = .failed from by decide] at h
      exact DUOutcome.noConfusion h
    · have hfmt : format_date_string s = .ok (String.mk (renderDate dt)) := by
        rw [format_date_string, if_neg hs, h]
      obtain ⟨hm1, hm2, hd1, hd2, hy1, hy2⟩ := duParse_valid h
      refine ⟨hfmt, ?_⟩
      rw [hfmt, Except.bind]
      exact format_renderDate_fixed hm1 hm2 hd1 hd2 hy hy2

/-- Concrete instance of `format_date_string_idempotent` on the
already-normalized string `"3/14/2023"`. -/
theorem format_date_string_idempotent_witness :
    duParse (pyStrip "3/14/2023".data) = .parsed ⟨2023, 3, 14⟩
  ∧ format_date_string "3/14/2023" = .ok "3/14/2023"
  ∧ (format_date_string "3/14/2023").bind format_date_string
      = format_date_string "3/14/2023" := by
  have h := format_date_string_idempotent.2 "3/14/2023" ⟨2023, 3, 14⟩
    (by decide) (by decide)
  exact ⟨by decide, h.1.trans (by decide), h.2⟩

/-- `pyFind` hit: the returned index is in range, holds `c`, and is the
first such index. -/
theorem pyFind_eq_nat {l : List Char} {c : Char} {i : Nat}
    (h : pyFind l c = (i : Int)) :
    i < l.length ∧ l[i]? = some c ∧ ∀ k, k < i → l[k]? ≠ some c := by
  unfold pyFind at h
  split at h
  · next i0 hf =>
      have hii : i0 = i := by omega
      subst hii
      obtain ⟨hlt, hp, hmin⟩ := List.findIdx?_eq_some_iff_getElem.mp hf
      refine ⟨hlt, ?_, ?_⟩
      · rw [List.getElem?_eq_getElem hlt]
        simpa using hp
      · intro k hk hck
        have hkl : k < l.length := lt_trans hk hlt
        rw [List.getElem?_eq_getElem hkl] at hck
        exact hmin k hk (by simpa using Option.some.inj hck)
  · exfalso; omega

/-- `pyFind` miss: `-1` means the character does not occur. -/
theorem pyFind_eq_neg_one {l : List Char} {c : Char}
    (h : pyFind l c = -1) : ∀ k : Nat, l[k]? ≠ some c := by
  unfold pyFind at h
  split at h
  · next i0 hf => exfalso; omega
  · next hf =>
      intro k hck
      by_cases hkl : k < l.length
      · rw [List.getElem?_eq_getElem hkl] at hck
        have hm := List.findIdx?_eq_none_iff.mp hf _ (l.getElem_mem hkl)
        rw [Option.some.inj hck] at hm
        simp at hm
      · have hnone : l[k]? = none :=
          List.getElem?_eq_none (show l.length ≤ k by omega)
        rw [hnone] at hck
        exact Option.noConfusion hck

/-- `pyFind` returns `-1` or a natural index. -/
theorem pyFind_cases (l : List Char) (c : Char) :
    pyFind l c = -1 ∨ ∃ i : Nat, pyFind l c = (i : Int) := by
  unfold pyFind
  cases l.findIdx? (fun x => x == c) with
  | none => exact Or.inl rfl
  | some i0 => exact Or.inr ⟨i0, rfl⟩

/-- `pyRFind` returns `-1` or a natural index below the length. -/
theorem pyRFind_cases (l : List Char) (c : Char) :
    pyRFind l c = -1 ∨ ∃ j : Nat, pyRFind l c = (j : Int) ∧ j < l.length := by
  unfold pyRFind
  cases hf : l.reverse.findIdx? (fun x => x == c) with
  | none => exact Or.inl rfl
  | some i0 =>
      obtain ⟨hlt, -, -⟩ := List.findIdx?_eq_some_iff_getElem.mp hf
      rw [List.length_reverse] at hlt
      exact Or.inr ⟨l.length - 1 - i0, rfl, by omega⟩

/-- `pyRFind` hit: the returned index is in range, holds `c`, and is
the last such index. -/
theorem pyRFind_eq_nat {l : List Char} {c : Char} {j : Nat}
    (h : pyRFind l c = (j : Int)) :
    j < l.length ∧ l[j]? = some c ∧
    ∀ k, j < k → k < l.length → l[k]? ≠ some c := by
  unfold pyRFind at h
  split at h
  · next i0 hf =>
      obtain ⟨hlt, hp, hmin⟩ := List.findIdx?_eq_some_iff_getElem.mp hf
      rw [List.length_reverse] at hlt
      have hji : j = l.length - 1 - i0 := by omega
      subst hji
      have hjl : l.length - 1 - i0 < l.length := by omega
      refine ⟨hjl, ?_, ?_⟩
      · rw [List.getElem?_eq_getElem hjl]
        rw [List.getElem_reverse] at hp
        simpa using hp
      · intro k hjk hkl hck
        rw [List.getElem?_eq_getElem hkl] at hck
        have hik : l.length - 1 - k < i0 := by omega
        have hm := hmin (l.length - 1 - k) hik
        rw [List.getElem_reverse] at hm
        have hkk : l.length - 1 - (l.length - 1 - k) = k := by omega
        simp only [hkk] at hm
        rw [Option.some.inj hck] at hm
        simp at hm
  · exfalso; omega

/-- A nonnegative slice bound within the length is kept. -/
theorem pySliceIdx_coe {n i : Nat} (h : i ≤ n) : pySliceIdx n (i : Int) = i := by
  unfold pySliceIdx
  have h0 : ¬ ((i : Int) < 0) := by omega
  rw [if_neg h0, if_neg h0]
  simp
  omega

/-- The `-1` slice bound denotes the last position (or 0 when empty). -/
theorem pySliceIdx_neg_one {n : Nat} :
    pySliceIdx n (-1) = n - 1 := by
  unfold pySliceIdx
  rw [if_pos (by omega : (-1 : Int) < 0)]
  by_cases hn : n = 0
  · subst hn; rfl
  · rw [if_neg (by omega : ¬ ((-1 : Int) + n < 0))]
    have : ((-1 : Int) + n).toNat = n - 1 := by omega
    rw [this]
    omega

/-- Unfolding equation for `pySlice`. -/
theorem pySlice_eq (l : List Char) (a b : Int) :
    pySlice l a b =
      (l.drop (pySliceIdx l.length a)).take
        (pySliceIdx l.length b - pySliceIdx l.length a) := rfl

/-- Unfolding equation for `clean_json_response`. -/
theorem clean_json_response_eq (s : String) :
    clean_json_response s =
      (if pySlice s.data (pyFind s.data '\x7b') (pyRFind s.data '\x7d' + 1) = []
       then "\x7b\x7d"
       else String.mk
        (pySlice s.data (pyFind s.data '\x7b') (pyRFind s.data '\x7d' + 1))) :=
  rfl

/-- When the last element is `c`, `pyRFind` returns the last index. -/
theorem pyRFind_of_getLast {l : List Char} {c : Char}
    (h : l.getLast? = some c) : pyRFind l c = ((l.length - 1 : Nat) : Int) := by
  have hrev : l.reverse.head? = some c := by rw [List.head?_reverse]; exact h
  cases hr : l.reverse with
  | nil => rw [hr] at hrev; exact Option.noConfusion hrev
  | cons x tl =>
      rw [hr] at hrev
      have hx : x = c := by simpa using hrev
      unfold pyRFind
      rw [hr, List.findIdx?_cons, hx]
      simp

/-- C7 (amended): when the input contains an open brace at first index
`i` and a close brace at last index `j` with `i ≤ j`,
`clean_json_response` returns exactly the slice from `i` through `j`
inclusive, which starts with the first `\x7b` and ends with the last
`\x7d`; when the last close brace lies strictly before the first open
brace the sentinel object string is returned; when no open brace exists
the sentinel is returned unless the string ends in a close brace, in
which case Python's negative-index slice `text[-1 : j+1]` yields that
final close brace alone. -/
theorem clean_json_response_spec (s : String) :
    (∀ i j : Nat, pyFind s.data '\x7b' = (i : Int) →
      pyRFind s.data '\x7d' = (j : Int) → i ≤ j →
      (clean_json_response s).data = (s.data.drop i).take (j + 1 - i)
      ∧ (clean_json_response s).data.head? = some '\x7b'
      ∧ (clean_json_response s).data.getLast? = some '\x7d')
  ∧ (pyRFind s.data '\x7d' < pyFind s.data '\x7b' →
      clean_json_response s = "\x7b\x7d")
  ∧ (pyFind s.data '\x7b' = -1 → s.data.getLast? ≠ some '\x7d' →
      clean_json_response s = "\x7b\x7d")
  ∧ (pyFind s.data '\x7b' = -1 → s.data.getLast? = some '\x7d' →
      clean_json_response s = "\x7d") := by
  refine ⟨?_, ?_, ?_, ?_⟩
  · -- a brace-delimited slice exists
    intro i j hi hj hij
    obtain ⟨hilt, hic, -⟩ := pyFind_eq_nat hi
    obtain ⟨hjlt, hjc, -⟩ := pyRFind_eq_nat hj
    have hsl : pySlice s.data (pyFind s.data '\x7b') (pyRFind s.data '\x7d' + 1)
        = (s.data.drop i).take (j + 1 - i) := by
      rw [hi, hj, show ((j : Int) + 1) = ((j + 1 : Nat) : Int) by omega,
        pySlice_eq, pySliceIdx_coe (by omega : i ≤ s.data.length),
        pySliceIdx_coe (by omega : j + 1 ≤ s.data.length)]
    have hlen : ((s.data.drop i).take (j + 1 - i)).length = j + 1 - i := by
      rw [List.length_take, List.length_drop]
      omega
    have hne : (s.data.drop i).take (j + 1 - i) ≠ [] := by
      intro hc
      rw [hc] at hlen
      simp at hlen
      omega
    have hres : (clean_json_response s).data = (s.data.drop i).take (j + 1 - i) := by
      rw [clean_json_response_eq, hsl, if_neg hne]
    refine ⟨hres, ?_, ?_⟩
    · rw [hres]
      have h0 : ((s.data.drop i).take (j + 1 - i))[0]? = s.data[i]? := by
        rw [List.getElem?_take]
        rw [if_pos (by omega : 0 < j + 1 - i)]
        rw [List.getElem?_drop]
        rw [Nat.add_zero]
      rw [List.head?_eq_getElem?, h0, hic]
    · rw [hres]
      rw [List.getLast?_eq_getElem?, hlen]
      have hjj : j + 1 - i - 1 = j - i := by omega
      rw [hjj, List.getElem?_take, if_pos (by omega : j - i < j + 1 - i),
        List.getElem?_drop, show i + (j - i) = j by omega, hjc]
  · -- last close brace strictly before first open brace: empty slice
    intro hlt
    rcases pyFind_cases s.data '\x7b' with hf | ⟨i, hf⟩
    · rcases pyRFind_cases s.data '\x7d' with hr | ⟨j, hr, -⟩
      · rw [hf, hr] at hlt; omega
      · rw [hf, hr] at hlt; omega
    · obtain ⟨hilt, -, -⟩ := pyFind_eq_nat hf
      rcases pyRFind_cases s.data '\x7d' with hr | ⟨j, hr, hjlt⟩
      · rw [clean_json_response_eq, hf, hr]
        rw [show ((-1 : Int) + 1) = ((0 : Nat) : Int) by omega]
        rw [pySlice_eq, pySliceIdx_coe (by omega : 0 ≤ s.data.length),
          pySliceIdx_coe (le_of_lt hilt)]
        simp
      · rw [hf, hr] at hlt
        have hji : j + 1 ≤ i := by omega
        rw [clean_json_response_eq, hf, hr]
        rw [show ((j : Int) + 1) = ((j + 1 : Nat) : Int) by omega]
        rw [pySlice_eq, pySliceIdx_coe (le_of_lt hilt),
          pySliceIdx_coe (by omega : j + 1 ≤ s.data.length)]
        rw [show j + 1 - i = 0 by omega]
        simp
  · -- no open brace, last character not a close brace
    intro hf hlast
    rcases Nat.eq_zero_or_pos s.data.length with hn | hn
    · have hdn : s.data = [] := List.eq_nil_of_length_eq_zero hn
      rw [clean_json_response_eq, hf, hdn]
      rcases pyRFind_cases s.data '\x7d' with hr | ⟨j, hr, hjlt⟩
      · rw [hdn] at hr
        rw [hr]
        rfl
      · omega
    · rcases pyRFind_cases s.data '\x7d' with hr | ⟨j, hr, hjlt⟩
      · rw [clean_json_response_eq, hf, hr]
        rw [show ((-1 : Int) + 1) = ((0 : Nat) : Int) by omega]
        rw [pySlice_eq, pySliceIdx_neg_one,
          pySliceIdx_coe (by omega : 0 ≤ s.data.length)]
        simp
      · obtain ⟨-, hjc, -⟩ := pyRFind_eq_nat hr
        have hjne : j ≠ s.data.length - 1 := by
          intro hc
          rw [List.getLast?_eq_getElem?] at hlast
          rw [hc] at hjc
          exact hlast hjc
        rw [clean_json_response_eq, hf, hr]
        rw [show ((j : Int) + 1) = ((j + 1 : Nat) : Int) by omega]
        rw [pySlice_eq, pySliceIdx_neg_one,
          pySliceIdx_coe (by omega : j + 1 ≤ s.data.length)]
        rw [show j + 1 - (s.data.length - 1) = 0 by omega]
        simp
  · -- no open brace, trailing close brace: the last character survives
    intro hf hlast
    have hne0 : s.data ≠ [] := by
      intro hc
      rw [hc] at hlast
      simp at hlast
    have hn : 1 ≤ s.data.length := List.length_pos.mpr hne0
    have hr := pyRFind_of_getLast hlast
    obtain ⟨-, hjc, -⟩ := pyRFind_eq_nat hr
    rw [clean_json_response_eq, hf, hr]
    rw [show (((s.data.length - 1 : Nat) : Int) + 1)
        = ((s.data.length : Nat) : Int) by omega]
    rw [pySlice_eq, pySliceIdx_neg_one, pySliceIdx_coe (le_refl s.data.length)]
    have hm : (s.data.drop (s.data.length - 1)).take
        (s.data.length - (s.data.length - 1)) = ['\x7d'] := by
      have hlen1 : ((s.data.drop (s.data.length - 1)).take
          (s.data.length - (s.data.length - 1))).length = 1 := by
        rw [List.length_take, List.length_drop]
        omega
      obtain ⟨a, ha⟩ := List.length_eq_one.mp hlen1
      have h0 : ((s.data.drop (s.data.length - 1)).take
          (s.data.length - (s.data.length - 1)))[0]? = some '\x7d' := by
        rw [List.getElem?_take, if_pos (by omega : 0 < s.data.length - (s.data.length - 1)),
          List.getElem?_drop]
        rw [show s.data.length - 1 + 0 = s.data.length - 1 by omega]
        rw [List.getLast?_eq_getElem?] at hlast
        exact hlast
      rw [ha] at h0 ⊢
      simp at h0
      rw [h0]
    rw [hm]
    rw [if_neg (by simp)]

/-- C7 counterexample: on a string with no open brace but a trailing
close brace, `text.find` is `-1`, the slice `text[-1 : rfind+1]` is the
last character, and the function returns it instead of the claimed
sentinel. -/
theorem clean_json_response_counterexample :
    pyFind "abc\x7d".data '\x7b' = -1
  ∧ clean_json_response "abc\x7d" = "\x7d"
  ∧ clean_json_response "abc\x7d" ≠ "\x7b\x7d" :=
  ⟨by decide, by decide, by decide⟩

/-- Concrete instance of `clean_json_response_spec`: stripping the
noise around a braced payload. -/
theorem clean_json_response_spec_witness :
    pyFind "x\x7ba\x7db".data '\x7b' = (1 : Int)
  ∧ pyRFind "x\x7ba\x7db".data '\x7d' = (3 : Int)
  ∧ (clean_json_response "x\x7ba\x7db").data
      = ("x\x7ba\x7db".data.drop 1).take 3
  ∧ (clean_json_response "x\x7ba\x7db").data.head? = some '\x7b'
  ∧ (clean_json_response "x\x7ba\x7db").data.getLast? = some '\x7d' := by
  have h := (clean_json_response_spec "x\x7ba\x7db").1 1 3
    (by decide) (by decide) (by decide)
  exact ⟨by decide, by decide, h.1, h.2.1, h.2.2⟩

/-- C8: a missing (or empty) `text` form field is answered 400
immediately.  The result is the same for every world — the Gemini
client, the classifier and the spreadsheet writer are never consulted —
and the spreadsheet effect trace is empty. -/
theorem handle_email_missing_body (w : World) (email_from : Option String) :
    handle_email w none email_from
      = (⟨"Failed: No email body content.", 400⟩, [])
  ∧ handle_email w (some "") email_from
      = (⟨"Failed: No email body content.", 400⟩, []) := by
  constructor
  · rw [handle_email.eq_def, if_pos (Or.inl rfl)]
  · rw [handle_email.eq_def, if_pos (Or.inr rfl)]

/-- Every run of the handler either performs no spreadsheet effect or
answers 200: only the success branch calls `update_google_sheet`. -/
theorem handle_email_sheet_or_200 (w : World) (text email_from : Option String) :
    (handle_email w text email_from).2 = []
    ∨ (handle_email w text email_from).1.status = 200 := by
  unfold handle_email
  by_cases hc : text = none ∨ text = some ""
  · rw [if_pos hc]
    simp
  · rw [if_neg hc]
    cases text with
    | none => exact absurd (Or.inl rfl) hc
    | some b =>
        simp only []
        cases hg : geminiInit w with
        | error e => simp
        | ok u =>
            cases hx : extract_data_from_email w b with
            | error e => simp
            | ok d =>
                simp only []
                by_cases hcer : pyStr (dGet d "Ardent CER#" (.vStr "")) = ""
                · rw [if_pos hcer]
                  simp
                · rw [if_neg hcer]
                  cases hfd : formatForwardedDate (dGetOpt d "Forwarded Date") with
                  | error e => simp
                  | ok fd => simp

/-- C10: whenever the handler answers 400 — missing body or empty
extracted request number — the spreadsheet effect trace is empty: no
open, worksheet creation or append was attempted, so the spreadsheet
is untouched. -/
theorem handle_email_400_no_sheet (w : World) (text email_from : Option String)
    (h : (handle_email w text email_from).1.status = 400) :
    (handle_email w text email_from).2 = [] := by
  rcases handle_email_sheet_or_200 w text email_from with h2 | h2
  · exact h2
  · rw [h2] at h
    exact absurd h (by decide)

/-- Concrete instance of `handle_email_400_no_sheet`: empty extracted
request number on an otherwise healthy world. -/
theorem handle_email_400_no_sheet_witness :
    (handle_email wNoCer (some "body") (some "a@b.c")).1.status = 400
  ∧ (handle_email wNoCer (some "body") (some "a@b.c")).2 = [] :=
  ⟨by decide, handle_email_400_no_sheet wNoCer (some "body") (some "a@b.c") (by decide)⟩

/-- C5: with a non-empty body and a successful extraction, the handler
answers 400 (with the CER failure message and no spreadsheet effect)
exactly when the extracted request number `str(...)`-converts to the
empty string; for every non-empty request number this branch is never
taken (the remaining outcomes are 200 or 500). -/
theorem handle_email_cer_empty_400 (w : World) (b : String)
    (email_from : Option String) (d : PyDict)
    (hb : b ≠ "") (hg : geminiInit w = .ok ())
    (hx : extract_data_from_email w b = .ok d) :
    (pyStr (dGet d "Ardent CER#" (.vStr "")) = "" →
      handle_email w (some b) email_from
        = (⟨"Failed: Could not extract CER#.", 400⟩, []))
  ∧ (pyStr (dGet d "Ardent CER#" (.vStr "")) ≠ "" →
      (handle_email w (some b) email_from).1.status ≠ 400) := by
  have hc : ¬ ((some b : Option String) = none
      ∨ (some b : Option String) = some "") := by
    simp [hb]
  constructor
  · intro hcer
    unfold handle_email
    rw [if_neg hc]
    simp only []
    rw [hg]
    simp only []
    rw [hx]
    simp only []
    rw [if_pos hcer]
  · intro hcer
    unfold handle_email
    rw [if_neg hc]
    simp only []
    rw [hg]
    simp only []
    rw [hx]
    simp only []
    rw [if_neg hcer]
    cases hfd : formatForwardedDate (dGetOpt d "Forwarded Date") with
    | error e => simp
    | ok fd => simp

/-- Concrete instances of `handle_email_cer_empty_400`: an empty
request number is answered 400; a populated one is not. -/
theorem handle_email_cer_empty_400_witness :
    handle_email wNoCer (some "body") (some "a@b.c")
      = (⟨"Failed: Could not extract CER#.", 400⟩, [])
  ∧ (handle_email wHappy (some "body") (some "a@b.c")).1.status ≠ 400 := by
  constructor
  · exact (handle_email_cer_empty_400 wNoCer "body" (some "a@b.c") []
      (by decide) rfl rfl).1 (by decide)
  · exact (handle_email_cer_empty_400 wHappy "body" (some "a@b.c") dHappy
      (by decide) rfl rfl).2 (by decide)

/-- C9: with a non-empty body, every exception raised during processing
other than the handled 400 cases — missing API key during client
construction, API-call or JSON-parse failure (both re-raised with the
wrapping message of line 64), or the date-normalization step — is
caught by the outer `except` and answered 500 with `str(e)` echoed in
the plain-text body, and no spreadsheet effect is performed. -/
theorem handle_email_500_echo (w : World) (b : String)
    (email_from : Option String) (hb : b ≠ "") :
    (∀ e, geminiInit w = .error e →
      handle_email w (some b) email_from
        = (⟨"Internal server error: " ++ e, 500⟩, []))
  ∧ (∀ e, geminiInit w = .ok () → extract_data_from_email w b = .error e →
      handle_email w (some b) email_from
        = (⟨"Internal server error: " ++ e, 500⟩, []))
  ∧ (∀ d e, geminiInit w = .ok () → extract_data_from_email w b = .ok d →
      pyStr (dGet d "Ardent CER#" (.vStr "")) ≠ "" →
      formatForwardedDate (dGetOpt d "Forwarded Date") = .error e →
      handle_email w (some b) email_from
        = (⟨"Internal server error: " ++ e, 500⟩, [])) := by
  have hc : ¬ ((some b : Option String) = none
      ∨ (some b : Option String) = some "") := by
    simp [hb]
  refine ⟨?_, ?_, ?_⟩
  · intro e hg
    unfold handle_email
    rw [if_neg hc]
    simp only []
    rw [hg]
  · intro e hg hx
    unfold handle_email
    rw [if_neg hc]
    simp only []
    rw [hg]
    simp only []
    rw [hx]
  · intro d e hg hx hcer hfd
    unfold handle_email
    rw [if_neg hc]
    simp only []
    rw [hg]
    simp only []
    rw [hx]
    simp only []
    rw [if_neg hcer]
    rw [hfd]

/-- Concrete instances of `handle_email_500_echo`: a missing API key
and an unparseable model reply, each echoed in a 500 body. -/
theorem handle_email_500_echo_witness :
    handle_email wNoKey (some "body") none
      = (⟨"Internal server error: GEMINI_API_KEY not found in environment variables.",
          500⟩, [])
  ∧ handle_email wBadJson (some "body") none
      = (⟨"Internal server error: Gemini API call or JSON parsing failed: Expecting value: line 1 column 1 (char 0)",
          500⟩, []) := by
  constructor
  · exact (handle_email_500_echo wNoKey "body" none (by decide)).1
      "GEMINI_API_KEY not found in environment variables." rfl
  · exact (handle_email_500_echo wBadJson "body" none (by decide)).2.1
      "Gemini API call or JSON parsing failed: Expecting value: line 1 column 1 (char 0)"
      rfl rfl

/-- C4: once processing reaches the spreadsheet-write stage — non-empty
body, successful extraction, non-empty request number and a successful
date-normalization step — the handler answers 200 with the success
body.  The world `w` is unconstrained on every spreadsheet oracle
(client, open, worksheet lookup/creation, header and row appends), so
the response is the same whether the write succeeds or raises:
`update_google_sheet` catches every exception itself (its model returns
the performed effects and discards the error), and none propagates. -/
theorem handle_email_200_regardless_of_sheet (w : World) (b : String)
    (email_from : Option String) (d : PyDict) (fd : PyVal)
    (hb : b ≠ "") (hg : geminiInit w = .ok ())
    (hx : extract_data_from_email w b = .ok d)
    (hcer : pyStr (dGet d "Ardent CER#" (.vStr "")) ≠ "")
    (hfd : formatForwardedDate (dGetOpt d "Forwarded Date") = .ok fd) :
    (handle_email w (some b) email_from).1 = ⟨SUCCESS_MSG, 200⟩ := by
  have hc : ¬ ((some b : Option String) = none
      ∨ (some b : Option String) = some "") := by
    simp [hb]
  unfold handle_email
  rw [if_neg hc]
  simp only []
  rw [hg]
  simp only []
  rw [hx]
  simp only []
  rw [if_neg hcer]
  rw [hfd]

/-- Concrete instance of `handle_email_200_regardless_of_sheet`: the
row append raises, yet the webhook still reports success. -/
theorem handle_email_200_regardless_of_sheet_witness :
    wAppendFail.appendOutcome = .error "quota exceeded"
  ∧ (handle_email wAppendFail (some "body") (some "a@b.c")).1
      = ⟨SUCCESS_MSG, 200⟩ :=
  ⟨rfl, handle_email_200_regardless_of_sheet wAppendFail "body" (some "a@b.c")
    dHappy (.vStr "3/14/2023") (by decide) rfl rfl (by decide) rfl⟩

/-- A `d.get(k)` hit determines `d.get(k, dflt)` for any default. -/
theorem dGet_of_dGetOpt {d : PyDict} {k : String} {v : PyVal} (dflt : PyVal)
    (h : dGetOpt d k = some v) : dGet d k dflt = v := by
  unfold dGetOpt at h
  unfold dGet
  split at h
  · next p hf =>
      exact Option.some.inj h
  · exact Option.noConfusion h

/-- Setting a key then reading it yields the written value. -/
theorem dGet_dSet_self (d : PyDict) (k : String) (v dflt : PyVal) :
    dGet (dSet d k v) k dflt = v := by
  induction d with
  | nil => simp [dSet, dGet, List.find?]
  | cons hd tl ih =>
      obtain ⟨k0, v0⟩ := hd
      by_cases hk : k0 = k
      · subst hk
        simp [dSet, dGet, List.find?]
      · have hbeq : (k0 == k) = false := beq_eq_false_iff_ne.mpr hk
        simp only [dSet, hbeq, if_false, Bool.false_eq_true]
        unfold dGet
        rw [List.find?]
        simp only [hbeq]
        exact ih

/-- Setting one key leaves reads of a different key unchanged. -/
theorem dGet_dSet_ne (d : PyDict) {k k' : String} (v dflt : PyVal)
    (h : k' ≠ k) : dGet (dSet d k' v) k dflt = dGet d k dflt := by
  induction d with
  | nil =>
      have hbeq : (k' == k) = false := beq_eq_false_iff_ne.mpr h
      simp [dSet, dGet, List.find?, hbeq]
  | cons hd tl ih =>
      obtain ⟨k0, v0⟩ := hd
      by_cases hk : k0 = k'
      · subst hk
        have hbeq : (k0 == k) = false := beq_eq_false_iff_ne.mpr h
        simp [dSet, dGet, List.find?, hbeq]
      · have hbeq : (k0 == k') = false := beq_eq_false_iff_ne.mpr hk
        simp only [dSet, hbeq, if_false, Bool.false_eq_true]
        unfold dGet
        rw [List.find?, List.find?]
        cases hbk : (k0 == k) with
        | true => rfl
        | false => exact ih

/-- Line 166 on a string-valued extracted date that normalizes without
raising: the truthiness guard and the `format_date_string` empty-string
branch coincide, so the result is the normalized string. -/
theorem formatForwardedDate_vStr (s t : String)
    (h : format_date_string s = .ok t) :
    formatForwardedDate (some (.vStr s)) = .ok (.vStr t) := by
  by_cases hs : s = ""
  · subst hs
    have ht : t = "" := by
      rw [show format_date_string "" = .ok "" from rfl] at h
      exact (Except.ok.inj h).symm
    subst ht
    rfl
  · simp [formatForwardedDate, pyTruthy, hs, h]

/-- C6 (amended): for a request that reaches a successful spreadsheet
write with all eight extracted fields populated as strings, the
appended row has exactly the ten fixed columns Forwarded Date, Market,
Ardent CER#, Capital $, Notes, Mfg, Model, ETA/Install, URL, Source
Email in that order — holding the NORMALIZED forwarded date (line 166
overwrites the field with `format_date_string` before the write), the
other seven extracted values unchanged, the derived market name, and
the sender address; when the market tab is created lazily its header
row is `HEADER`, the same ten names in the same order. -/
theorem update_row_layout (w : World) (b src : String) (d : PyDict)
    (fdS fdN cer cap notes mfg mdl eta url : String)
    (hb : b ≠ "") (hg : geminiInit w = .ok ())
    (hx : extract_data_from_email w b = .ok d)
    (hfmt : format_date_string fdS = .ok fdN)
    (h1 : dGetOpt d "Forwarded Date" = some (.vStr fdS))
    (h2 : dGetOpt d "Ardent CER#" = some (.vStr cer))
    (h3 : dGetOpt d "Capital $" = some (.vStr cap))
    (h4 : dGetOpt d "Notes" = some (.vStr notes))
    (h5 : dGetOpt d "Mfg" = some (.vStr mfg))
    (h6 : dGetOpt d "Model" = some (.vStr mdl))
    (h7 : dGetOpt d "ETA/Install" = some (.vStr eta))
    (h8 : dGetOpt d "URL" = some (.vStr url))
    (hcer : cer ≠ "")
    (hclient : w.clientOutcome = .ok ()) (hopen : w.openOutcome = .ok ())
    (happend : w.appendOutcome = .ok ()) :
    (w.wsLookup = .found →
      handle_email w (some b) (some src)
        = (⟨SUCCESS_MSG, 200⟩,
           [.openSheet (w.sheetName.getD "CER_Report"),
            .wsFound (.vStr (get_market_from_cer (.vStr cer))),
            .appendRow (.vStr (get_market_from_cer (.vStr cer)))
              [.vStr fdN,
               .vStr (get_market_from_cer (.vStr cer)),
               .vStr cer, .vStr cap, .vStr notes, .vStr mfg, .vStr mdl,
               .vStr eta, .vStr url, .vStr src]]))
  ∧ (w.wsLookup = .notFound → w.addWsOutcome = .ok () →
      w.headerOutcome = .ok () →
      handle_email w (some b) (some src)
        = (⟨SUCCESS_MSG, 200⟩,
           [.openSheet (w.sheetName.getD "CER_Report"),
            .wsCreate (.vStr (get_market_from_cer (.vStr cer))),
            .headerRow (.vStr (get_market_from_cer (.vStr cer))) HEADER,
            .appendRow (.vStr (get_market_from_cer (.vStr cer)))
              [.vStr fdN,
               .vStr (get_market_from_cer (.vStr cer)),
               .vStr cer, .vStr cap, .vStr notes, .vStr mfg, .vStr mdl,
               .vStr eta, .vStr url, .vStr src]])) := by
  have hc : ¬ ((some b : Option String) = none
      ∨ (some b : Option String) = some "") := by
    simp [hb]
  have hcerGet : dGet d "Ardent CER#" (.vStr "") = .vStr cer :=
    dGet_of_dGetOpt _ h2
  have hcerStr : pyStr (dGet d "Ardent CER#" (.vStr "")) = cer := by
    rw [hcerGet]; rfl
  have hcerNe : ¬ (pyStr (dGet d "Ardent CER#" (.vStr "")) = "") := by
    rw [hcerStr]; exact hcer
  have hfd : formatForwardedDate (dGetOpt d "Forwarded Date")
      = .ok (.vStr fdN) := by
    rw [h1]
    exact formatForwardedDate_vStr fdS fdN hfmt
  -- the dictionary passed to the sheet writer
  have hrow : ∀ k dflt, k ≠ "Forwarded Date" → k ≠ "Market" →
      k ≠ "Source Email" →
      dGet (dSet (dSet (dSet d "Forwarded Date"
          (.vStr fdN)) "Market"
          (.vStr (get_market_from_cer (.vStr cer)))) "Source Email"
          (.vStr src)) k dflt = dGet d k dflt := by
    intro k dflt hk1 hk2 hk3
    rw [dGet_dSet_ne _ _ _ (fun hcontra => hk3 hcontra.symm),
      dGet_dSet_ne _ _ _ (fun hcontra => hk2 hcontra.symm),
      dGet_dSet_ne _ _ _ (fun hcontra => hk1 hcontra.symm)]
  constructor
  · intro hws
    unfold handle_email
    rw [if_neg hc]
    simp only []
    rw [hg]
    simp only []
    rw [hx]
    simp only []
    rw [if_neg hcerNe]
    rw [hcerStr, hfd]
    simp only []
    unfold update_google_sheet updateSheetTry
    rw [hclient]
    simp only []
    rw [hopen]
    simp only []
    rw [hws]
    simp only []
    rw [happend]
    simp only []
    have e3 : dGet d "Capital $" (.vStr "") = .vStr cap := dGet_of_dGetOpt _ h3
    have e4 : dGet d "Notes" (.vStr "") = .vStr notes := dGet_of_dGetOpt _ h4
    have e5 : dGet d "Mfg" (.vStr "") = .vStr mfg := dGet_of_dGetOpt _ h5
    have e6 : dGet d "Model" (.vStr "") = .vStr mdl := dGet_of_dGetOpt _ h6
    have e7 : dGet d "ETA/Install" (.vStr "") = .vStr eta := dGet_of_dGetOpt _ h7
    have e8 : dGet d "URL" (.vStr "") = .vStr url := dGet_of_dGetOpt _ h8
    simp [dGet_dSet_ne, dGet_dSet_self, hcerGet, e3, e4, e5, e6, e7, e8]
  · intro hws haddws hheader
    unfold handle_email
    rw [if_neg hc]
    simp only []
    rw [hg]
    simp only []
    rw [hx]
    simp only []
    rw [if_neg hcerNe]
    rw [hcerStr, hfd]
    simp only []
    unfold update_google_sheet updateSheetTry
    rw [hclient]
    simp only []
    rw [hopen]
    simp only []
    rw [hws]
    simp only []
    rw [haddws]
    simp only []
    rw [hheader]
    simp only []
    rw [happend]
    simp only []
    have e3 : dGet d "Capital $" (.vStr "") = .vStr cap := dGet_of_dGetOpt _ h3
    have e4 : dGet d "Notes" (.vStr "") = .vStr notes := dGet_of_dGetOpt _ h4
    have e5 : dGet d "Mfg" (.vStr "") = .vStr mfg := dGet_of_dGetOpt _ h5
    have e6 : dGet d "Model" (.vStr "") = .vStr mdl := dGet_of_dGetOpt _ h6
    have e7 : dGet d "ETA/Install" (.vStr "") = .vStr eta := dGet_of_dGetOpt _ h7
    have e8 : dGet d "URL" (.vStr "") = .vStr url := dGet_of_dGetOpt _ h8
    simp [dGet_dSet_ne, dGet_dSet_self, hcerGet, e3, e4, e5, e6, e7, e8]

/-- C6 counterexample: with all eight fields populated and every
spreadsheet call succeeding, the appended row's first column holds the
normalized date, not the extracted field value `"03/14/2023"` — so the
row does not contain the eight extracted values verbatim. -/
theorem update_row_layout_counterexample :
    dGetOpt dHappy "Forwarded Date" = some (.vStr "03/14/2023")
  ∧ (handle_email wHappy (some "body") (some "a@b.c")).2
      = [.openSheet "CER_Report", .wsFound (.vStr "East Texas"),
         .appendRow (.vStr "East Texas")
           [.vStr "3/14/2023", .vStr "East Texas", .vStr "5510-001",
            .vStr "315000", .vStr "ED Expansion", .vStr "Stryker", .vStr "X",
            .vStr "Q3 2026", .vStr "http://erp.example", .vStr "a@b.c"]]
  ∧ (PyVal.vStr "3/14/2023") ≠ .vStr "03/14/2023" :=
  ⟨rfl, rfl, by decide⟩

/-- Concrete instance of `update_row_layout` on the all-success world. -/
theorem update_row_layout_witness :
    format_date_string "03/14/2023" = .ok "3/14/2023"
  ∧ handle_email wHappy (some "body") (some "a@b.c")
      = (⟨SUCCESS_MSG, 200⟩,
         [.openSheet "CER_Report", .wsFound (.vStr "East Texas"),
          .appendRow (.vStr "East Texas")
            [.vStr "3/14/2023", .vStr "East Texas",
             .vStr "5510-001", .vStr "315000", .vStr "ED Expansion",
             .vStr "Stryker", .vStr "X", .vStr "Q3 2026",
             .vStr "http://erp.example", .vStr "a@b.c"]]) := by
  have h := (update_row_layout wHappy "body" "a@b.c" dHappy
    "03/14/2023" "3/14/2023" "5510-001" "315000" "ED Expansion" "Stryker" "X"
    "Q3 2026" "http://erp.example"
    (by decide) rfl rfl rfl rfl rfl rfl rfl rfl rfl rfl rfl (by decide)
    rfl rfl rfl).1 rfl
  refine ⟨rfl, ?_⟩
  rw [h]
  rfl
